import Mathlib

/-!
Verification development for `flirt/eda/preprocessing/particleFilter.py`.

The file shallowly embeds the `Model` state-space class and the
`ParticleFilter` preprocessor from the source. Python floats become real
numbers; the numpy global random state becomes an explicit stream of reals
(`RStream`) threaded through every sampling call: a draw from
`np.random.normal(0.0, scale)` consumes one element `z` of the stream
(a standard-normal variate) and yields `scale * z`, and a uniform draw on
`[0,1)` used by categorical resampling consumes one element and yields it
unchanged. In-place mutation of an array owned by the caller (Python `particles += noise`)
is embedded by returning the post-call state of that argument, and methods
that could reassign fields of `self` return the post-call model as well.

The `pyparticleest` library (`simulator.Simulator`, `kalman.lognormpdf`)
is an external dependency whose source is not part of the repository; its
forward bootstrap filter, backward smoother and Gaussian log-densities are
modelled from the specification (sections 4.2, 4.3 and the glossary) and
marked `Modelled from the spec:` below.
-/

noncomputable section

open Real

/-- Explicit random source: an infinite sequence of reals together with a
cursor marking the next element to be consumed. A fixed numpy seed
corresponds to a fixed `seq`. -/
structure RStream where
  seq : ℕ → ℝ
  pos : ℕ

/-- Consume one element of the random stream. -/
def RStream.draw (g : RStream) : ℝ × RStream :=
  (g.seq g.pos, ⟨g.seq, g.pos + 1⟩)

/-- Consume `n` elements of the random stream, in order. -/
def drawN : ℕ → RStream → List ℝ × RStream
  | 0, g => ([], g)
  | n + 1, g =>
    let p := g.draw
    let q := drawN n p.2
    (p.1 :: q.1, q.2)

/-- Embedding of `np.random.normal(0.0, scale, (N,))`: `N` draws, each the
scale times a standard-normal variate taken from the stream. The second
argument of `np.random.normal` is the scale (standard deviation). Only the
value semantics at a nonnegative scale is modelled: numpy additionally
raises a ValueError on a negative scale, so runs whose configuration makes
a negative value reach this call are outside the scope of this model. -/
def normalDraws (scale : ℝ) (N : ℕ) (g : RStream) : List ℝ × RStream :=
  let p := drawN N g
  (p.1.map (fun z => scale * z), p.2)

/-- Embedding of the `Model` class state: the three parameters stored by
`Model.__init__` (`np.copy` of `P0`, `Q`, `R`; `R` arrives as the 1x1 array
`((R_variance,),)`, kept here as its scalar entry). -/
structure Model where
  P0 : ℝ
  Q : ℝ
  R : ℝ

/-- Embedding of `Model.create_initial_estimate(N)`: the source returns
`np.random.normal(0.0, self.P0, (N,))` reshaped to a column, so `self.P0`
itself is passed as the scale argument. The method reads but never assigns
`self`; the post-call model is returned alongside the result. -/
def Model.create_initial_estimate (m : Model) (N : ℕ) (g : RStream) :
    (List ℝ × RStream) × Model :=
  (normalDraws m.P0 N g, m)

/-- Embedding of `Model.sample_process_noise(particles, u, t)`: the source
returns `np.random.normal(0.0, self.Q, (N,))` with `N = len(particles)`,
passing `self.Q` itself as the scale argument. `u` and `t` are unused. -/
def Model.sample_process_noise (m : Model) (particles : List ℝ)
    (u : Option ℝ) (t : ℝ) (g : RStream) : (List ℝ × RStream) × Model :=
  (normalDraws m.Q particles.length g, m)

/-- Embedding of `Model.update(particles, u, t, noise)`: the source executes
`particles += noise`, mutating the array of the caller in place and returning
`None`. The first component is the state of the `particles`
argument after the call; the second is the post-call model. -/
def Model.update (m : Model) (particles : List ℝ) (u : Option ℝ) (t : ℝ)
    (noise : List ℝ) : List ℝ × Model :=
  (List.zipWith (· + ·) particles noise, m)

/-- Modelled from the spec: `pyparticleest.utils.kalman.lognormpdf_scalar`
(and the 1x1 case of `kalman.lognormpdf`) is not in the repository; per the
spec it is the log of the Normal density with mean 0 and the given variance,
evaluated at `err`. -/
def lognormpdf (err v : ℝ) : ℝ :=
  -(Real.log (2 * Real.pi * v)) / 2 - err ^ 2 / (2 * v)

/-- Embedding of `Model.measure(particles, y, t)`: the source fills
`logyprob[k] = kalman.lognormpdf_scalar(particles[k] - y, self.R)` for each
particle `k`. The post-call model is returned alongside the result. -/
def Model.measure (m : Model) (particles : List ℝ) (y : ℝ) (t : ℝ) :
    List ℝ × Model :=
  (particles.map (fun x => lognormpdf (x - y) m.R), m)

/-- Embedding of `Model.logp_xnext_full(part, past_trajs, pind, future_trajs,
find, ut, yt, tt, cur_ind)`: the source sets `diff = future_trajs[0].pa.part[find]
- part` and fills `logpxnext[k] = kalman.lognormpdf(diff[k], Q)`. Only the
chosen future particle (`future_part` indexed by `find`) and the candidate
array `part` are read; the remaining bookkeeping arguments are unused. -/
def Model.logp_xnext_full (m : Model) (part : List ℝ) (future_part : List ℝ)
    (find : ℕ) : List ℝ × Model :=
  (part.map (fun x => lognormpdf (future_part.getD find 0 - x) m.Q), m)

/-- Maximum of a list of reals (used by the log-sum-exp shift). -/
def listMax : List ℝ → ℝ
  | [] => 0
  | [x] => x
  | x :: y :: xs => max x (listMax (y :: xs))

/-- Modelled from the spec: log-sum-exp weight normalization — subtract the
maximum log-weight before exponentiating, then divide by the sum, yielding a
probability distribution over the particles. -/
def normalizeLogWeights (ls : List ℝ) : List ℝ :=
  let mx := listMax ls
  let es := ls.map (fun l => Real.exp (l - mx))
  es.map (fun e => e / es.sum)

/-- Weighted sum of values against weights (the weighted mean when the
weights sum to 1). -/
def dot (ws xs : List ℝ) : ℝ :=
  (List.zipWith (· * ·) ws xs).sum

/-- Modelled from the spec: draw one index from a categorical distribution
with the given weights, using a uniform variate `u` in `[0,1)` — the least
index whose cumulative weight exceeds `u`. -/
def sampleIndexAux : List ℝ → ℝ → ℕ
  | [], _ => 0
  | w :: ws, u => if u < w then 0 else sampleIndexAux ws (u - w) + 1

/-- Modelled from the spec: multinomial resampling — draw `len(parts)`
indices independently according to the normalized weights and take the
corresponding particle values. -/
def resample (parts ws : List ℝ) (g : RStream) : List ℝ × RStream :=
  let p := drawN parts.length g
  (p.1.map (fun u => parts.getD (sampleIndexAux ws u) 0), p.2)

/-- One recorded step of the forward history: the propagated (pre-resample)
particles, their normalized weights, the filtered estimate (weighted mean
taken before resampling), and the post-resample particles. -/
structure FStep where
  parts : List ℝ
  weights : List ℝ
  mean : ℝ
  resampled : List ℝ

/-- Modelled from the spec: one step of the bootstrap forward filter —
propagate with process noise via `Model.update`, weight with
`Model.measure` normalized by log-sum-exp, record the pre-resample weighted
mean as the filtered estimate, then resample unconditionally. -/
def forwardStep (m : Model) (prev : List ℝ) (y : ℝ) (g : RStream) :
    FStep × RStream :=
  let pn := (m.sample_process_noise prev none 0 g).1
  let moved := (m.update prev none 0 pn.1).1
  let logw := (m.measure moved y 0).1
  let ws := normalizeLogWeights logw
  let rs := resample moved ws pn.2
  (⟨moved, ws, dot ws moved, rs.1⟩, rs.2)

/-- Modelled from the spec: the forward pass over the whole measurement
sequence, recording one `FStep` per observation (with `meas_first = False`
the initial particle set receives no measurement update of its own). -/
def forwardFilter (m : Model) (cur : List ℝ) (ys : List ℝ) (g : RStream) :
    List FStep × RStream :=
  match ys with
  | [] => ([], g)
  | y :: rest =>
    let p := forwardStep m cur y g
    let q := forwardFilter m p.1.resampled rest p.2
    (p.1 :: q.1, q.2)

/-- Modelled from the spec: normalize non-negative weights into a
probability distribution by dividing by their sum. -/
def normalizeWeights (ws : List ℝ) : List ℝ :=
  ws.map (fun w => w / ws.sum)

/-- Modelled from the spec: one backward-sampling step — for every forward
particle at this step, the unnormalized backward weight is its forward
normalized weight times the exponentiated transition log-density
(`Model.logp_xnext_full`) to the already chosen next value; normalize and
sample one index. -/
def backwardStep (m : Model) (st : FStep) (xnext : ℝ) (g : RStream) :
    ℝ × RStream :=
  let ld := (m.logp_xnext_full st.parts [xnext] 0).1
  let raw := List.zipWith (fun w l => w * Real.exp l) st.weights ld
  let bw := normalizeWeights raw
  let p := g.draw
  (st.parts.getD (sampleIndexAux bw p.1) 0, p.2)

/-- Modelled from the spec: the backward recursion over the remaining
history (given in reverse time order), threading the chosen next value. -/
def backwardTrajAux (m : Model) (revHist : List FStep) (xnext : ℝ)
    (g : RStream) : List ℝ × RStream :=
  match revHist with
  | [] => ([], g)
  | st :: rest =>
    let p := backwardStep m st xnext g
    let q := backwardTrajAux m rest p.1 p.2
    (p.1 :: q.1, q.2)

/-- Modelled from the spec: one full backward trajectory — sample the final
particle of the final step from the final normalized weights, then recurse backward;
the result is returned in time order. -/
def backwardTraj (m : Model) (hist : List FStep) (g : RStream) :
    List ℝ × RStream :=
  match hist.reverse with
  | [] => ([], g)
  | last :: rest =>
    let p := g.draw
    let xT := last.parts.getD (sampleIndexAux last.weights p.1) 0
    let q := backwardTrajAux m rest xT p.2
    ((xT :: q.1).reverse, q.2)

/-- Modelled from the spec: `M` independent backward trajectories. -/
def backwardTrajs (m : Model) (hist : List FStep) : ℕ → RStream →
    List (List ℝ) × RStream
  | 0, g => ([], g)
  | n + 1, g =>
    let p := backwardTraj m hist g
    let q := backwardTrajs m hist n p.2
    (p.1 :: q.1, q.2)

/-- Modelled from the spec: the smoothed estimate at each step is the
unweighted arithmetic mean, across the trajectories, of their value at that
step. -/
def smoothedMeans (trajs : List (List ℝ)) (T : ℕ) : List ℝ :=
  (List.range T).map
    (fun t => (trajs.map (fun tr => tr.getD t 0)).sum / (trajs.length : ℝ))

/-- Result of one `Simulator.simulate` run: the forward history, the
smoother output, and the state of the random stream afterwards. -/
structure SimResult where
  hist : List FStep
  smoothed : List ℝ
  gOut : RStream

/-- Modelled from the spec: `pyparticleest.simulator.Simulator` with
`filter = PF`, `smoother = full`, `meas_first = False` — draw the initial
particles from the model, run the forward filter over all observations,
then generate `M` backward trajectories and average them. -/
def simulate (m : Model) (ys : List ℝ) (N M : ℕ) (g : RStream) : SimResult :=
  let ini := (m.create_initial_estimate N g).1
  let fw := forwardFilter m ini.1 ys ini.2
  let bw := backwardTrajs m fw.1 M fw.2
  ⟨fw.1, smoothedMeans bw.1 ys.length, bw.2⟩

/-- Modelled from the spec: `Simulator.get_filtered_mean()` — the per-step
forward-filtered mean sequence recorded by the forward pass. -/
def get_filtered_mean (r : SimResult) : List ℝ :=
  r.hist.map FStep.mean

/-- Modelled from the spec: `Simulator.get_smoothed_mean()` — the smoothed
sequence produced by the backward smoother. -/
def get_smoothed_mean (r : SimResult) : List ℝ :=
  r.smoothed

/-- Embedding of a `pd.Series`: a value sequence, a parallel timestamp
index, and a name. -/
structure Series where
  values : List ℝ
  index : List ℝ
  name : String

/-- Embedding of the `pd.Series(data=..., index=..., name=...)` constructor:
construction fails when the data length does not match the index length. -/
def mkSeries (vals idx : List ℝ) (nm : String) : Except String Series :=
  if vals.length = idx.length then Except.ok ⟨vals, idx, nm⟩
  else Except.error "Length of values does not match length of index"

/-- Embedding of the `ParticleFilter` preprocessor state: the five
configuration values stored by its constructor. -/
structure ParticleFilter where
  num_particles : ℤ
  num_smoothers : ℤ
  P0 : ℝ
  Q : ℝ
  R : ℝ

/-- Embedding of `ParticleFilter.__init__`: the source stores the five
parameters unchanged (with `R` wrapped as a 1x1 array) and contains no
validation — no branch of it can raise, so the result is always `ok`. -/
def ParticleFilter.init (num_particles num_smoothers : ℤ)
    (P0_variance Q_variance R_variance : ℝ) : Except String ParticleFilter :=
  Except.ok ⟨num_particles, num_smoothers, P0_variance, Q_variance, R_variance⟩

/-- Embedding of `ParticleFilter.__process__(data)`: ravel the input values,
build the `Model` from the stored configuration, run
`simulate(num_particles, num_smoothers, filter=PF, smoother=full,
meas_first=False)`, take `get_filtered_mean()`, and rebuild a series on the
own index of the input with name `filtered_eda`. The second component is
the state of the `data` argument after the call (the source never writes to
it). The model covers configurations on which the library computation
completes: a negative count is clamped to zero draws by `Int.toNat` where
numpy would raise on a negative dimension, and errors numpy raises deeper
inside the sampling computation (such as a negative scale reaching
`np.random.normal`) are not modelled. -/
def ParticleFilter.process (c : ParticleFilter) (data : Series)
    (g : RStream) : Except String Series × Series :=
  let eda := data.values
  let m : Model := ⟨c.P0, c.Q, c.R⟩
  let sim := simulate m eda c.num_particles.toNat c.num_smoothers.toNat g
  let particle_filtered := get_filtered_mean sim
  (mkSeries particle_filtered data.index "filtered_eda", data)

/-- Embedding of the prefix of `ParticleFilter.__process__` that executes
before the first sampling call, source lines 107 to 113: `eda =
np.ravel(data)`, `model = Model(self.P0, self.Q, self.R)` and `sim =
simulator.Simulator(model, u=None, y=eda)` (the simulator constructor only
stores its arguments). The result is the model and the ravelled values
handed to `sim.simulate`. None of these statements reads a configuration
check or can raise, for any parameter values, so the prefix is total: the
first failure a bad configuration can provoke lies inside the sampling
computation itself, never before it. -/
def ParticleFilter.process_before_sampling (c : ParticleFilter)
    (data : Series) : Except String (Model × List ℝ) :=
  Except.ok (⟨c.P0, c.Q, c.R⟩, data.values)

/-- Written from the wording of the spec, for comparison with the embedded
densities: the Normal probability density of `x` with the given mean and
variance. -/
def specNormalPdf (x mean v : ℝ) : ℝ :=
  Real.exp (-((x - mean) ^ 2) / (2 * v)) / Real.sqrt (2 * Real.pi * v)

/-- Concrete random stream used by the counterexamples: the standard-normal
slot at position 1 reads 1; every other slot (normals and uniforms alike)
reads 0. -/
def gCounter : RStream :=
  ⟨fun n => if n = 1 then 1 else 0, 0⟩

/-- Concrete random stream whose every slot reads 1. -/
def gOnes : RStream :=
  ⟨fun _ => 1, 0⟩

/-- Concrete configuration for the counterexamples: 2 particles, 1 backward
trajectory, unit variances. -/
def pfCounter : ParticleFilter :=
  ⟨2, 1, 1, 1, 1⟩

/-- Concrete one-sample input series for the counterexamples. -/
def dataCounter : Series :=
  ⟨[1 / 2], [0], "eda"⟩

end

section Helpers

lemma zipWith_add_getD (xs : List ℝ) :
    ∀ (ys : List ℝ) (i : ℕ), i < xs.length → i < ys.length →
      (List.zipWith (· + ·) xs ys).getD i 0 = xs.getD i 0 + ys.getD i 0 := by
  induction xs with
  | nil => intro ys i h1 _; exact absurd h1 (Nat.not_lt_zero i)
  | cons x xs ih =>
    intro ys i h1 h2
    cases ys with
    | nil => exact absurd h2 (Nat.not_lt_zero i)
    | cons y ys =>
      cases i with
      | zero => rfl
      | succ j =>
        have := ih ys j (Nat.lt_of_succ_lt_succ h1) (Nat.lt_of_succ_lt_succ h2)
        simpa using this

lemma forwardFilter_length (m : Model) :
    ∀ (ys : List ℝ) (cur : List ℝ) (g : RStream),
      (forwardFilter m cur ys g).1.length = ys.length := by
  intro ys
  induction ys with
  | nil => intro cur g; rfl
  | cons y rest ih =>
    intro cur g
    simp only [forwardFilter, List.length_cons]
    rw [ih]

lemma get_filtered_mean_length (m : Model) (ys : List ℝ) (N M : ℕ)
    (g : RStream) :
    (get_filtered_mean (simulate m ys N M g)).length = ys.length := by
  simp only [get_filtered_mean, simulate, List.length_map]
  exact forwardFilter_length m ys _ _

lemma normalizeLogWeights_pair (a : ℝ) :
    normalizeLogWeights [a, a] = [1 / 2, 1 / 2] := by
  simp only [normalizeLogWeights, listMax, max_self, sub_self, List.map_cons,
    List.map_nil, Real.exp_zero, List.sum_cons, List.sum_nil]
  norm_num

lemma process_eval (c : ParticleFilter) (data : Series) (g : RStream)
    (h : data.values.length = data.index.length) :
    (c.process data g).1 = Except.ok
      ⟨get_filtered_mean (simulate ⟨c.P0, c.Q, c.R⟩ data.values
        c.num_particles.toNat c.num_smoothers.toNat g),
       data.index, "filtered_eda"⟩ := by
  show mkSeries _ data.index "filtered_eda" = _
  rw [mkSeries, if_pos (by rw [get_filtered_mean_length, h])]

lemma lognormpdf_eq_log_specNormalPdf (a b v : ℝ) (hv : 0 < v) :
    lognormpdf (a - b) v = Real.log (specNormalPdf b a v) := by
  have h2 : 0 < 2 * Real.pi * v := by positivity
  rw [specNormalPdf, Real.log_div (Real.exp_ne_zero _)
    (ne_of_gt (Real.sqrt_pos.mpr h2)), Real.log_exp,
    Real.log_sqrt h2.le, lognormpdf]
  ring

lemma specNormalPdf_symm (a b v : ℝ) :
    specNormalPdf a b v = specNormalPdf b a v := by
  unfold specNormalPdf
  rw [show ((a - b) ^ 2 : ℝ) = (b - a) ^ 2 by ring]

lemma drawN_two (g : RStream) :
    drawN 2 g = ([g.seq g.pos, g.seq (g.pos + 1)], ⟨g.seq, g.pos + 2⟩) := rfl

lemma backwardTrajs_one (m : Model) (hist : List FStep) (g : RStream) :
    backwardTrajs m hist 1 g =
      ([(backwardTraj m hist g).1], (backwardTraj m hist g).2) := rfl

lemma lognormpdf_neg (e v : ℝ) : lognormpdf (-e) v = lognormpdf e v := by
  unfold lognormpdf; ring_nf

lemma exp_div_sum_pos (x y : ℝ) :
    0 < Real.exp x / (Real.exp x + Real.exp y) :=
  div_pos (Real.exp_pos x) (by positivity)

lemma sim_eval :
    simulate ⟨1, 1, 1⟩ [1 / 2] 2 1 gCounter =
      ⟨[⟨[0, 1], [1 / 2, 1 / 2], 1 / 2, [0, 0]⟩], [0],
        ⟨gCounter.seq, 7⟩⟩ := by
  have hr1 : List.range 1 = [0] := rfl
  simp only [simulate, forwardFilter, forwardStep, Model.create_initial_estimate,
    Model.sample_process_noise, Model.update, Model.measure, normalDraws,
    drawN_two, RStream.draw, resample, backwardTrajs_one, backwardTraj,
    backwardTrajAux, backwardStep, gCounter]
  norm_num [drawN_two, RStream.draw, lognormpdf_neg, normalizeLogWeights_pair,
    dot, sampleIndexAux, backwardTrajAux, hr1, smoothedMeans, exp_div_sum_pos]

end Helpers

/-- C1: the claim states that `ParticleFilter.__process__` returns the
smoothed estimate sequence, the mean over the backward trajectories; on the
concrete one-sample input `1/2` with two particles and one backward
trajectory the source returns the forward-filtered mean sequence `[1/2]`
(it calls `get_filtered_mean`), while the backward smoother of the very
same run produces `[0]`. -/
theorem C1_counterexample :
    dataCounter.values ≠ [] ∧
    (pfCounter.process dataCounter gCounter).1 =
      Except.ok ⟨[1 / 2], [0], "filtered_eda"⟩ ∧
    get_smoothed_mean (simulate ⟨pfCounter.P0, pfCounter.Q, pfCounter.R⟩
      dataCounter.values pfCounter.num_particles.toNat
      pfCounter.num_smoothers.toNat gCounter) = [0] ∧
    ([1 / 2] : List ℝ) ≠ [0] := by
  refine ⟨by simp [dataCounter], ?_, ?_, by norm_num⟩
  · show mkSeries (get_filtered_mean (simulate ⟨1, 1, 1⟩ [1 / 2] 2 1
      gCounter)) [0] "filtered_eda" = _
    rw [sim_eval]
    rfl
  · show get_smoothed_mean (simulate ⟨1, 1, 1⟩ [1 / 2] 2 1 gCounter) = [0]
    rw [sim_eval]
    rfl

/-- C1 (amended): for every input series, `ParticleFilter.__process__`
returns the forward-filtered mean sequence (`get_filtered_mean`, the
per-step weighted particle mean taken before resampling) of the run; the
backward smoother is executed but its output is not what is returned. -/
theorem C1_returns_filtered_mean (c : ParticleFilter) (data : Series)
    (g : RStream) (h : data.values.length = data.index.length) :
    ∃ out : Series, (c.process data g).1 = Except.ok out ∧
      out.values = get_filtered_mean (simulate ⟨c.P0, c.Q, c.R⟩ data.values
        c.num_particles.toNat c.num_smoothers.toNat g) :=
  ⟨_, process_eval c data g h, rfl⟩

/-- C1 witness: the amended claim instantiated at the concrete
configuration, one-sample series and stream. -/
theorem C1_returns_filtered_mean_witness :
    dataCounter.values.length = dataCounter.index.length ∧
    ∃ out : Series, (pfCounter.process dataCounter gCounter).1 =
        Except.ok out ∧
      out.values = get_filtered_mean (simulate
        ⟨pfCounter.P0, pfCounter.Q, pfCounter.R⟩ dataCounter.values
        pfCounter.num_particles.toNat pfCounter.num_smoothers.toNat
        gCounter) :=
  ⟨rfl, C1_returns_filtered_mean pfCounter dataCounter gCounter rfl⟩

/-- C7: `Model.measure` computes, pointwise per particle `x`, the log of
the Normal density of the observation `y` with mean `x` and variance `R`,
and `Model.logp_xnext_full` computes, per candidate particle `x`, the log
of the Normal density of the chosen next value with mean `x` and variance
`Q` — both stated against `specNormalPdf`, written from the wording of the spec. -/
theorem C7_log_densities (m : Model) (particles : List ℝ) (y t : ℝ)
    (future_part : List ℝ) (find : ℕ) (hR : 0 < m.R) (hQ : 0 < m.Q) :
    (m.measure particles y t).1 =
      particles.map (fun x => Real.log (specNormalPdf y x m.R)) ∧
    (m.logp_xnext_full particles future_part find).1 =
      particles.map (fun x =>
        Real.log (specNormalPdf (future_part.getD find 0) x m.Q)) := by
  constructor
  · have hf : (fun x => lognormpdf (x - y) m.R) =
        fun x => Real.log (specNormalPdf y x m.R) :=
      funext fun x => lognormpdf_eq_log_specNormalPdf x y m.R hR
    simp only [Model.measure, hf]
  · have hf : (fun x => lognormpdf (future_part.getD find 0 - x) m.Q) =
        fun x => Real.log (specNormalPdf (future_part.getD find 0) x m.Q) :=
      funext fun x => by
        rw [lognormpdf_eq_log_specNormalPdf _ x m.Q hQ, specNormalPdf_symm]
    simp only [Model.logp_xnext_full, hf]

/-- C7 witness: the density identities instantiated at unit variances, one
particle at 0, observation 0 and next value taken from `[1]`. -/
theorem C7_log_densities_witness :
    (0 : ℝ) < Model.R ⟨1, 1, 1⟩ ∧ (0 : ℝ) < Model.Q ⟨1, 1, 1⟩ ∧
    ((Model.measure ⟨1, 1, 1⟩ [0] 0 0).1 =
      ([0] : List ℝ).map (fun x =>
        Real.log (specNormalPdf 0 x (Model.R ⟨1, 1, 1⟩))) ∧
    (Model.logp_xnext_full ⟨1, 1, 1⟩ [0] [1] 0).1 =
      ([0] : List ℝ).map (fun x =>
        Real.log (specNormalPdf (([1] : List ℝ).getD 0 0) x
          (Model.Q ⟨1, 1, 1⟩)))) :=
  ⟨one_pos, one_pos,
    C7_log_densities ⟨1, 1, 1⟩ [0] 0 0 [1] 0 one_pos one_pos⟩

/-- C2: the claim states that a non-positive variance or a non-positive
particle/trajectory count makes the system fail fast with a configuration
error before any sampling occurs; the source contains no validation at all.
With zero counts and negative variances, `ParticleFilter.__init__` succeeds
and stores the values unchanged, and the entire prefix of `__process__`
preceding the first sampling call succeeds as well — so nothing fails
before sampling, and whatever failure such a configuration later provokes
(numpy rejecting the negative scale inside `create_initial_estimate`)
arises inside the sampling computation, not as a fail-fast configuration
error before it. -/
theorem C2_counterexample :
    ParticleFilter.init 0 0 (-1) (-1) (-1) =
      Except.ok ⟨0, 0, -1, -1, -1⟩ ∧
    (⟨0, 0, -1, -1, -1⟩ : ParticleFilter).process_before_sampling
      ⟨[0], [0], "eda"⟩ = Except.ok (⟨-1, -1, -1⟩, [0]) := by
  constructor
  · rfl
  · rfl

/-- C2 (amended): no configuration validation exists — for every
combination of parameter values, `ParticleFilter.__init__` accepts and
stores them unchanged without raising, and the prefix of `__process__` that
runs before the first sampling call (ravel, `Model` construction,
`Simulator` construction) also succeeds, performing no configuration check
before sampling begins. -/
theorem C2_no_validation (num_particles num_smoothers : ℤ)
    (P0_variance Q_variance R_variance : ℝ) (data : Series) :
    ParticleFilter.init num_particles num_smoothers P0_variance Q_variance
      R_variance =
    Except.ok ⟨num_particles, num_smoothers, P0_variance, Q_variance,
      R_variance⟩ ∧
    (⟨num_particles, num_smoothers, P0_variance, Q_variance, R_variance⟩ :
      ParticleFilter).process_before_sampling data =
    Except.ok (⟨P0_variance, Q_variance, R_variance⟩, data.values) :=
  ⟨rfl, rfl⟩

/-- C3: the claim (and the docstring of the model itself, `x(0) ~ N(0,P0)` together
with the parameter names `P0_variance`, `Q_variance`) requires the scale
passed to the normal sampler to be the square root of the configured
variance; the source passes the variance itself. With variance 4 and a
standard-normal draw of 1, `create_initial_estimate` and
`sample_process_noise` both produce 4, while a draw of scale sqrt 4 would
produce 2. -/
theorem C3_variance_passed_as_scale :
    ((Model.create_initial_estimate ⟨4, 4, 4⟩ 1 gOnes).1.1 = [4] ∧
      (Model.sample_process_noise ⟨4, 4, 4⟩ [0] none 0 gOnes).1.1 = [4]) ∧
    Real.sqrt 4 * 1 = 2 ∧ (2 : ℝ) ≠ 4 := by
  refine ⟨⟨?_, ?_⟩, ?_, by norm_num⟩
  · simp [Model.create_initial_estimate, normalDraws, drawN, RStream.draw,
      gOnes]
  · simp [Model.sample_process_noise, normalDraws, drawN, RStream.draw,
      gOnes]
  · rw [mul_one, show (4 : ℝ) = 2 ^ 2 by norm_num]
    exact Real.sqrt_sq (by norm_num)

/-- C6: with the random stream embedded as an explicit input, two runs of
`ParticleFilter.__process__` on equal configurations, equal input series
and equal random streams produce identical results. -/
theorem C6_determinism (c1 c2 : ParticleFilter) (d1 d2 : Series)
    (g1 g2 : RStream) (hc : c1 = c2) (hd : d1 = d2) (hg : g1 = g2) :
    c1.process d1 g1 = c2.process d2 g2 := by
  subst hc; subst hd; subst hg; rfl

/-- C6 witness: the two-run property instantiated at a concrete
configuration, series and stream. -/
theorem C6_determinism_witness :
    pfCounter = pfCounter ∧ dataCounter = dataCounter ∧
    gCounter = gCounter ∧
    pfCounter.process dataCounter gCounter =
      pfCounter.process dataCounter gCounter :=
  ⟨rfl, rfl, rfl, C6_determinism pfCounter pfCounter dataCounter dataCounter
    gCounter gCounter rfl rfl rfl⟩

/-- C8: the claim states that no model operation mutates its input
arguments; `Model.update` executes `particles += noise`, so after the call
the array `[1]` passed by the caller, with noise `[2]`, holds `[3]`, not `[1]`. -/
theorem C8_counterexample :
    ((Model.update ⟨1, 1, 1⟩ [1] none 0 [2]).1) ≠ [1] := by
  simp only [Model.update, List.zipWith_cons_cons, List.zipWith_nil_right]
  intro h
  have := List.head_eq_of_cons_eq h
  norm_num at this

/-- C8 (amended): every model operation leaves the stored parameters `P0`,
`Q`, `R` unchanged, and none mutates its arguments except `Model.update`,
which overwrites the particle array of the caller with the pointwise sum of the
particles and the noise. -/
theorem C8_frame (m : Model) (N : ℕ) (g : RStream) (ps ns fp : List ℝ)
    (u : Option ℝ) (t y : ℝ) (find : ℕ) :
    (m.create_initial_estimate N g).2 = m ∧
    (m.sample_process_noise ps u t g).2 = m ∧
    (m.update ps u t ns).2 = m ∧
    (m.measure ps y t).2 = m ∧
    (m.logp_xnext_full ps fp find).2 = m ∧
    (m.update ps u t ns).1 = List.zipWith (· + ·) ps ns :=
  ⟨rfl, rfl, rfl, rfl, rfl, rfl⟩

/-- C9: the transition applied by `Model.update` sends each particle `x`
with noise `n` to exactly `x + n` — a random walk with no control input. -/
theorem C9_update_is_add (m : Model) (ps ns : List ℝ) (u : Option ℝ)
    (t : ℝ) (i : ℕ) (h1 : i < ps.length) (h2 : i < ns.length) :
    ((m.update ps u t ns).1).getD i 0 = ps.getD i 0 + ns.getD i 0 :=
  zipWith_add_getD ps ns i h1 h2

/-- C9 witness: the transition evaluated at particle 3 with noise 5. -/
theorem C9_update_is_add_witness :
    0 < ([(3 : ℝ)]).length ∧ 0 < ([(5 : ℝ)]).length ∧
    ((Model.update ⟨1, 1, 1⟩ [3] none 0 [5]).1).getD 0 0 =
      ([(3 : ℝ)]).getD 0 0 + ([(5 : ℝ)]).getD 0 0 :=
  ⟨by decide, by decide,
    C9_update_is_add ⟨1, 1, 1⟩ [3] [5] none 0 0 (by decide) (by decide)⟩

/-- C4: for every input series (whose value and index sequences agree in
length, the `pd.Series` invariant), processing succeeds and the output
series has exactly the index sequence of the input and exactly as many values as
the input. -/
theorem C4_shape_preservation (c : ParticleFilter) (data : Series)
    (g : RStream) (h : data.values.length = data.index.length) :
    ∃ out : Series, (c.process data g).1 = Except.ok out ∧
      out.index = data.index ∧
      out.values.length = data.values.length :=
  ⟨⟨get_filtered_mean (simulate ⟨c.P0, c.Q, c.R⟩ data.values
      c.num_particles.toNat c.num_smoothers.toNat g), data.index,
      "filtered_eda"⟩, process_eval c data g h, rfl,
    get_filtered_mean_length _ _ _ _ _⟩

/-- C4 witness: shape preservation instantiated at the concrete
configuration, one-sample series and stream. -/
theorem C4_shape_preservation_witness :
    dataCounter.values.length = dataCounter.index.length ∧
    ∃ out : Series, (pfCounter.process dataCounter gCounter).1 =
        Except.ok out ∧
      out.index = dataCounter.index ∧
      out.values.length = dataCounter.values.length :=
  ⟨rfl, C4_shape_preservation pfCounter dataCounter gCounter rfl⟩

/-- C10: on every successful run the output series carries the name
`filtered_eda` and the own index object of the input series, and the input
series is returned unchanged by the call. -/
theorem C10_output_series (c : ParticleFilter) (data : Series)
    (g : RStream) (h : data.values.length = data.index.length) :
    (∃ out : Series, (c.process data g).1 = Except.ok out ∧
      out.name = "filtered_eda" ∧ out.index = data.index) ∧
    (c.process data g).2 = data :=
  ⟨⟨⟨get_filtered_mean (simulate ⟨c.P0, c.Q, c.R⟩ data.values
      c.num_particles.toNat c.num_smoothers.toNat g), data.index,
      "filtered_eda"⟩, process_eval c data g h, rfl, rfl⟩, rfl⟩

/-- C10 witness: the output name, index identity and input preservation
instantiated at the concrete configuration, series and stream. -/
theorem C10_output_series_witness :
    dataCounter.values.length = dataCounter.index.length ∧
    ((∃ out : Series, (pfCounter.process dataCounter gCounter).1 =
        Except.ok out ∧
      out.name = "filtered_eda" ∧ out.index = dataCounter.index) ∧
    (pfCounter.process dataCounter gCounter).2 = dataCounter) :=
  ⟨rfl, C10_output_series pfCounter dataCounter gCounter rfl⟩
